import Mathlib

/-!
Shallow embedding of the reflector subscription contract (`src/lib.rs`).

Addresses are abstract (`Addr`), `u64` quantities are modelled as `Nat`,
and token balances are modelled as `Int` so that non-negativity is a real
property (the source stores balances as `u64`; the guards in the source are
exactly what keeps every subtraction from underflowing).  Storage is a map
`Nat → Option Subscription`; each public entry point is a pure function
returning either an error (the `panic_with_error` codes of the source) or
the new state together with the events it publishes, the transfers it
performs and the amount it burns.  Host-level authorization
(`require_auth`, `panic_if_not_admin`) is an external capability and is not
modelled; everything after it is.
-/

namespace Reflector

/-- One day in milliseconds (`const DAY: u64 = 86400 * 1000`). -/
def DAY : Nat := 86400 * 1000

/-- Source constant `MAX_WEBHOOK_SIZE: u32 = 2048`. -/
def MAX_WEBHOOK_SIZE : Nat := 2048

/-- Source constant `MIN_FEE_FACTOR: u64 = 1`. -/
def MIN_FEE_FACTOR : Nat := 1

/-- Source constant `MIN_HEARTBEAT: u32 = 5`. -/
def MIN_HEARTBEAT : Nat := 5

/-- Abstract Soroban addresses: the contract's own address plus user accounts. -/
inductive Addr where
  | contract : Addr
  | user : Nat → Addr
deriving DecidableEq, Repr

/-- Asset descriptors are opaque to the contract core; modelled as tokens. -/
abbrev TickerAsset := Nat

/-- Status enum from `types/subscription_status.rs`. -/
inductive SubscriptionStatus where
  | Active : SubscriptionStatus
  | Suspended : SubscriptionStatus
  | Cancelled : SubscriptionStatus
deriving DecidableEq, Repr

/-- Contract error codes (`types/error.rs` plus the
`InvalidSubscriptionStatusError` used by `lib.rs`). -/
inductive Error where
  | AlreadyInitialized : Error
  | Unauthorized : Error
  | SubscriptionNotFound : Error
  | NotInitialized : Error
  | InvalidAmount : Error
  | InvalidHeartbeat : Error
  | InvalidThreshold : Error
  | WebhookTooLong : Error
  | InvalidSubscriptionStatusError : Error
deriving DecidableEq, Repr

/-- Stored subscription record (the `status`/`updated`/`base`/`quote`
generation used by `lib.rs`).  `webhook` is a byte payload; `balance` is the
`u64` balance viewed in `Int`. -/
structure Subscription where
  owner : Addr
  base : TickerAsset
  quote : TickerAsset
  threshold : Nat
  heartbeat : Nat
  webhook : List Nat
  balance : Int
  status : SubscriptionStatus
  updated : Nat
deriving DecidableEq, Repr

/-- Creation parameters from `types/subscription_init_params.rs`. -/
structure SubscriptionInitParams where
  owner : Addr
  base : TickerAsset
  quote : TickerAsset
  threshold : Nat
  heartbeat : Nat
  webhook : List Nat
deriving DecidableEq, Repr

/-- Persistent contract state: the config slots plus the subscription store. -/
structure ContractState where
  initialized : Bool
  admin : Addr
  fee : Nat
  token : Nat
  lastSubscriptionId : Nat
  subs : Nat → Option Subscription

/-- Point update of the subscription store (`e.set_subscription`). -/
def updateMap (m : Nat → Option Subscription) (k : Nat) (v : Subscription) :
    Nat → Option Subscription :=
  fun k' => if k' = k then some v else m k'

/-- Events published by the contract, named after their `symbol_short!` tags. -/
inductive Event where
  | created : Nat → Subscription → Event
  | deposited : Addr → Nat → Subscription → Nat → Event
  | suspended : Addr → Nat → Nat → Event
  | charged : Addr → Nat → Nat → Event
  | cancelled : Addr → Nat → Event
deriving DecidableEq, Repr

/-- The subscription id an event refers to. -/
def eventSubId : Event → Nat
  | .created id _ => id
  | .deposited _ id _ _ => id
  | .suspended _ _ id => id
  | .charged _ _ id => id
  | .cancelled _ id => id

/-- A token movement `transfer(src, dst, amount)`. -/
structure Transfer where
  src : Addr
  dst : Addr
  amount : Int
deriving DecidableEq, Repr

/-- Operation `config`: one-time initialization. -/
def config (s : ContractState) (admin : Addr) (token : Nat) (fee : Nat) :
    Except Error ContractState :=
  if s.initialized then .error .AlreadyInitialized
  else .ok { initialized := true, admin := admin, fee := fee, token := token,
             lastSubscriptionId := 0, subs := s.subs }

/-- Operation `set_fee`: admin-only unconditional fee replacement. -/
def set_fee (s : ContractState) (fee : Nat) : ContractState :=
  { s with fee := fee }

/-- Loop accumulator of `charge`: the mutated store, the locally collected
events and the running `total_charge`. -/
structure ChargeAcc where
  subs : Nat → Option Subscription
  events : List Event
  totalCharge : Int

/-- One iteration of the `charge` loop (`lib.rs` lines 119-155): absent id is
skipped; zero elapsed days is skipped; otherwise the charge is clamped to the
balance, `updated` is reset to `now`, the record is suspended when the new
balance is below the fee, the record is persisted and events are collected. -/
def chargeStep (now : Nat) (fee : Nat) (acc : ChargeAcc) (subscription_id : Nat) :
    ChargeAcc :=
  match acc.subs subscription_id with
  | none => acc
  | some subscription =>
    let days := (now - subscription.updated) / DAY
    if days = 0 then acc
    else
      let due : Int := (days * fee : Nat)
      let chg : Int := if subscription.balance < due then subscription.balance else due
      let sub1 : Subscription :=
        { subscription with balance := subscription.balance - chg, updated := now }
      let sub2 : Subscription :=
        if sub1.balance < (fee : Int) then { sub1 with status := .Suspended } else sub1
      let evs : List Event :=
        (if sub1.balance < (fee : Int) then
          [Event.suspended subscription.owner now subscription_id]
         else []) ++ [Event.charged subscription.owner now subscription_id]
      { subs := updateMap acc.subs subscription_id sub2,
        events := acc.events ++ evs,
        totalCharge := acc.totalCharge + chg }

/-- The full `charge` loop over the caller-supplied batch. -/
def chargeAcc (s : ContractState) (now : Nat) (ids : List Nat) : ChargeAcc :=
  ids.foldl (chargeStep now s.fee) { subs := s.subs, events := [], totalCharge := 0 }

/-- Result of a `charge` call: the new state, the published events and the
amount burned from the contract's custody. -/
structure ChargeResult where
  state : ContractState
  events : List Event
  burned : Int

/-- Operation `charge` (`lib.rs` lines 113-167).  Per-id mutations are persisted inside
the loop; when the accumulated `total_charge` is zero the call returns early,
publishing no events and burning nothing. -/
def charge (s : ContractState) (now : Nat) (ids : List Nat) : ChargeResult :=
  let acc := chargeAcc s now ids
  let s' := { s with subs := acc.subs }
  if acc.totalCharge = 0 then { state := s', events := [], burned := 0 }
  else { state := s', events := acc.events, burned := acc.totalCharge }

/-- Result of a successful `create_subscription`: the returned pair, the new
state, events, transfers and burn. -/
structure CreateResult where
  retId : Nat
  retSub : Subscription
  state : ContractState
  events : List Event
  transfers : List Transfer
  burned : Int

/-- Operation `create_subscription` (`lib.rs` lines 189-238): validation in source
order, then transfer of `amount`, burn of the activation fee, and insertion
of the fresh record under `last_subscription_id + 1`. -/
def create_subscription (s : ContractState) (now : Nat)
    (new_subscription : SubscriptionInitParams) (amount : Nat) :
    Except Error CreateResult :=
  if ¬ s.initialized then .error .NotInitialized
  else
    let activation_fee := s.fee * MIN_FEE_FACTOR
    if amount < activation_fee then .error .InvalidAmount
    else if new_subscription.heartbeat < MIN_HEARTBEAT then .error .InvalidHeartbeat
    else if new_subscription.threshold = 0 ∨ new_subscription.threshold > 1000 then
      .error .InvalidThreshold
    else if new_subscription.webhook.length > MAX_WEBHOOK_SIZE then .error .WebhookTooLong
    else
      let subscription_id := s.lastSubscriptionId + 1
      let subscription : Subscription :=
        { owner := new_subscription.owner, base := new_subscription.base,
          quote := new_subscription.quote, threshold := new_subscription.threshold,
          heartbeat := new_subscription.heartbeat, webhook := new_subscription.webhook,
          balance := ((amount - activation_fee : Nat) : Int),
          status := .Active, updated := now }
      let s' : ContractState :=
        { s with subs := updateMap s.subs subscription_id subscription,
                 lastSubscriptionId := subscription_id }
      .ok { retId := subscription_id, retSub := subscription, state := s',
            events := [Event.created subscription_id subscription],
            transfers := [⟨new_subscription.owner, Addr.contract, (amount : Int)⟩],
            burned := (activation_fee : Int) }

/-- Result of a successful `deposit`. -/
structure DepositResult where
  state : ContractState
  events : List Event
  transfers : List Transfer
  burned : Int

/-- Common tail of `deposit` after the status match: transfer `amount`, burn
`burn_amount`, credit `amount - burn_amount` to the balance, persist and
emit the `deposited` event. -/
def depositFinish (s : ContractState) (from_ : Addr) (subscription_id : Nat)
    (amount : Nat) (burn_amount : Nat) (sub1 : Subscription) : DepositResult :=
  let sub2 : Subscription :=
    { sub1 with balance := sub1.balance + ((amount - burn_amount : Nat) : Int) }
  { state := { s with subs := updateMap s.subs subscription_id sub2 },
    events := [Event.deposited sub2.owner subscription_id sub2 amount],
    transfers := [⟨from_, Addr.contract, (amount : Int)⟩],
    burned := (burn_amount : Int) }

/-- Operation `deposit` (`lib.rs` lines 254-290): zero amount rejected, missing record
rejected, then the status match decides the burn (`fee` on reactivation from
`Suspended`, rejection when `Cancelled`, nothing otherwise) before the
transfer and the balance credit of `amount - burn_amount`. -/
def deposit (s : ContractState) (from_ : Addr) (subscription_id : Nat) (amount : Nat) :
    Except Error DepositResult :=
  if ¬ s.initialized then .error .NotInitialized
  else if amount = 0 then .error .InvalidAmount
  else
    match s.subs subscription_id with
    | none => .error .SubscriptionNotFound
    | some subscription =>
      match subscription.status with
      | .Suspended =>
        if amount < s.fee then .error .InvalidAmount
        else .ok (depositFinish s from_ subscription_id amount s.fee
          { subscription with status := .Active })
      | .Cancelled => .error .InvalidSubscriptionStatusError
      | .Active => .ok (depositFinish s from_ subscription_id amount 0 subscription)

/-- Result of a successful `cancel`. -/
structure CancelResult where
  state : ContractState
  events : List Event
  transfers : List Transfer

/-- Operation `cancel` (`lib.rs` lines 302-326): only an `Active` subscription may be
cancelled; the remaining balance is refunded to the owner, the balance is
zeroed and the status becomes `Cancelled`. -/
def cancel (s : ContractState) (subscription_id : Nat) : Except Error CancelResult :=
  if ¬ s.initialized then .error .NotInitialized
  else
    match s.subs subscription_id with
    | none => .error .SubscriptionNotFound
    | some subscription =>
      match subscription.status with
      | .Active =>
        let sub2 : Subscription := { subscription with status := .Cancelled, balance := 0 }
        .ok { state := { s with subs := updateMap s.subs subscription_id sub2 },
              events := [Event.cancelled subscription.owner subscription_id],
              transfers := [⟨Addr.contract, subscription.owner, subscription.balance⟩] }
      | _ => .error .InvalidSubscriptionStatusError

/-- Operation `get_subscription` (read-only). -/
def get_subscription (s : ContractState) (subscription_id : Nat) :
    Except Error Subscription :=
  if ¬ s.initialized then .error .NotInitialized
  else
    match s.subs subscription_id with
    | none => .error .SubscriptionNotFound
    | some subscription => .ok subscription

/-! ### Proof-layer definitions -/

/-- An id is inert for the charge loop when its record is absent or has
fewer than one elapsed full day. -/
def chargeInert (now : Nat) (acc : ChargeAcc) (id : Nat) : Prop :=
  ∀ sub, acc.subs id = some sub → (now - sub.updated) / DAY = 0

/-- Amount due (`days * fee`) for a subscription (mirrors the loop body
of `charge`). -/
def chargedDue (now fee : Nat) (sub : Subscription) : Int :=
  (((now - sub.updated) / DAY) * fee : Nat)

/-- The amount actually deducted: the due amount clamped to the balance
(mirrors the loop body of `charge`). -/
def chargedAmount (now fee : Nat) (sub : Subscription) : Int :=
  if sub.balance < chargedDue now fee sub then sub.balance else chargedDue now fee sub

/-- The record produced by one charge iteration on a due subscription
(mirrors the loop body of `charge`). -/
def chargedSub (now fee : Nat) (sub : Subscription) : Subscription :=
  if sub.balance - chargedAmount now fee sub < (fee : Int) then
    { sub with balance := sub.balance - chargedAmount now fee sub, updated := now,
               status := .Suspended }
  else
    { sub with balance := sub.balance - chargedAmount now fee sub, updated := now }

/-- All stored balances are non-negative. -/
def balancesNonneg (s : ContractState) : Prop :=
  ∀ id sub, s.subs id = some sub → 0 ≤ sub.balance

/-- All balances held in a charge-loop accumulator are non-negative. -/
def accNonneg (acc : ChargeAcc) : Prop :=
  ∀ id sub, acc.subs id = some sub → 0 ≤ sub.balance

/-! ### Concrete example states used by witnesses and counterexamples -/

/-- The empty subscription store. -/
def emptySubs : Nat → Option Subscription := fun _ => none

/-- A concrete active subscription used in witnesses. -/
def exSub : Subscription :=
  { owner := Addr.user 0, base := 1, quote := 2, threshold := 10, heartbeat := 5,
    webhook := [7, 7], balance := 100, status := .Active, updated := 0 }

/-- A concrete initialized state holding `sub` under id 1. -/
def exState (sub : Subscription) (fee : Nat) : ContractState :=
  { initialized := true, admin := Addr.user 99, fee := fee, token := 0,
    lastSubscriptionId := 1, subs := updateMap emptySubs 1 sub }

/-- Concrete creation parameters used in witnesses. -/
def exParams : SubscriptionInitParams :=
  { owner := Addr.user 4, base := 3, quote := 4, threshold := 10, heartbeat := 5,
    webhook := [1, 2, 3] }

/-- Example subscription `exSub` cancelled with zero balance. -/
def exSubCancelled : Subscription := { exSub with status := .Cancelled, balance := 0 }

/-- Example subscription `exSub` with zero balance. -/
def exSubZero : Subscription := { exSub with balance := 0 }

/-- Example subscription `exSub` suspended with balance 50. -/
def exSubSusp : Subscription := { exSub with status := .Suspended, balance := 50 }

/-- Example subscription `exSub` suspended with its original balance. -/
def exSubSuspended : Subscription := { exSub with status := .Suspended }

/-! ### Helper lemmas about the charge loop -/

/-- A charge iteration for one id leaves every other id's record alone. -/
theorem chargeStep_subs_of_ne (now fee : Nat) (acc : ChargeAcc) (id id' : Nat)
    (h : id' ≠ id) : (chargeStep now fee acc id).subs id' = acc.subs id' := by
  unfold chargeStep
  split
  · rfl
  · dsimp only
    split
    · rfl
    · simp [updateMap, h]

/-- An id whose record is absent is skipped by a charge iteration. -/
theorem chargeStep_of_none (now fee : Nat) (acc : ChargeAcc) (id : Nat)
    (h : acc.subs id = none) : chargeStep now fee acc id = acc := by
  unfold chargeStep
  rw [h]

/-- A charge iteration on an inert id is the identity. -/
theorem chargeStep_of_inert (now fee : Nat) (acc : ChargeAcc) (id : Nat)
    (h : chargeInert now acc id) : chargeStep now fee acc id = acc := by
  unfold chargeStep
  split
  · rfl
  · next sub heq => rw [if_pos (h sub heq)]

/-- Inertness of an id is preserved by a charge iteration on any id. -/
theorem chargeInert_step (now fee : Nat) (acc : ChargeAcc) (id id' : Nat)
    (h : chargeInert now acc id) :
    chargeInert now (chargeStep now fee acc id') id := by
  by_cases hid : id' = id
  · subst hid
    rw [chargeStep_of_inert now fee acc id' h]
    exact h
  · intro sub hsub
    rw [chargeStep_subs_of_ne now fee acc id' id (fun he => hid he.symm)] at hsub
    exact h sub hsub

/-- After a charge iteration on an id, that id is inert: either it was
skipped (absent or not yet due) or its `updated` field is now `now`. -/
theorem chargeInert_after_step (now fee : Nat) (acc : ChargeAcc) (id : Nat) :
    chargeInert now (chargeStep now fee acc id) id := by
  intro sub hsub
  unfold chargeStep at hsub
  revert hsub
  split
  · next heq =>
    intro hsub
    rw [heq] at hsub
    cases hsub
  · next sub0 heq =>
    dsimp only
    split
    · next hdays =>
      intro hsub
      rw [heq] at hsub
      cases hsub
      exact hdays
    · intro hsub
      simp only [updateMap, if_pos rfl] at hsub
      cases hsub
      simp [apply_ite Subscription.updated]

/-- Inertness of an id is preserved by the whole charge loop. -/
theorem chargeInert_foldl (now fee : Nat) (l : List Nat) (acc : ChargeAcc) (id : Nat)
    (h : chargeInert now acc id) :
    chargeInert now (l.foldl (chargeStep now fee) acc) id := by
  induction l generalizing acc with
  | nil => exact h
  | cons a l ih => exact ih _ (chargeInert_step now fee acc id a h)

/-- Absence of a record is preserved by a charge iteration. -/
theorem chargeStep_none_preserved (now fee : Nat) (acc : ChargeAcc) (id id' : Nat)
    (h : acc.subs id = none) : (chargeStep now fee acc id').subs id = none := by
  by_cases hid : id' = id
  · subst hid
    rw [chargeStep_of_none now fee acc id' h]
    exact h
  · rw [chargeStep_subs_of_ne now fee acc id' id (fun he => hid he.symm)]
    exact h

/-- Absence of a record is preserved by the whole charge loop. -/
theorem charge_foldl_none (now fee : Nat) (l : List Nat) (acc : ChargeAcc) (id : Nat)
    (h : acc.subs id = none) : (l.foldl (chargeStep now fee) acc).subs id = none := by
  induction l generalizing acc with
  | nil => exact h
  | cons a l ih => exact ih _ (chargeStep_none_preserved now fee acc id a h)

/-- Membership in a conditional singleton list forces the element. -/
theorem eq_of_mem_ite_singleton {α : Type} {c : Prop} [Decidable c] {x e : α}
    (he : e ∈ (if c then [x] else ([] : List α))) : e = x := by
  by_cases h : c
  · rw [if_pos h] at he
    exact List.mem_singleton.mp he
  · rw [if_neg h] at he
    cases he

/-- Every event appended by a charge iteration refers to the processed id. -/
theorem chargeStep_events (now fee : Nat) (acc : ChargeAcc) (id : Nat) :
    ∀ e ∈ (chargeStep now fee acc id).events, e ∈ acc.events ∨ eventSubId e = id := by
  intro e he
  simp only [chargeStep] at he
  revert he
  split
  · exact fun he => Or.inl he
  · next subscription heq =>
    split
    · exact fun he => Or.inl he
    · intro he
      simp only [List.mem_append] at he
      rcases he with he | he | he
      · exact Or.inl he
      · right
        have he' := eq_of_mem_ite_singleton he
        subst he'
        rfl
      · right
        have he' : e = Event.charged subscription.owner now id :=
          List.mem_singleton.mp he
        subst he'
        rfl

/-- An id with fewer than one elapsed day keeps its record verbatim across
the whole charge loop and collects no event. -/
theorem charge_skip_frame (now fee : Nat) (l : List Nat) (acc : ChargeAcc) (id : Nat)
    (sub : Subscription) (hsub : acc.subs id = some sub)
    (hdays : (now - sub.updated) / DAY = 0)
    (hev : ∀ e ∈ acc.events, eventSubId e ≠ id) :
    (l.foldl (chargeStep now fee) acc).subs id = some sub ∧
      ∀ e ∈ (l.foldl (chargeStep now fee) acc).events, eventSubId e ≠ id := by
  induction l generalizing acc with
  | nil => exact ⟨hsub, hev⟩
  | cons a l ih =>
    rw [List.foldl_cons]
    by_cases ha : a = id
    · subst ha
      rw [chargeStep_of_inert now fee acc a
        (fun s hs => by rw [hsub] at hs; cases hs; exact hdays)]
      exact ih acc hsub hev
    · apply ih
      · rw [chargeStep_subs_of_ne now fee acc a id (fun he => ha he.symm)]
        exact hsub
      · intro e he
        rcases chargeStep_events now fee acc a e he with h' | h'
        · exact hev e h'
        · rw [h']
          exact ha

/-- One charge iteration on a present, due subscription: the record is
replaced by `chargedSub`, the two events are collected and the clamped
amount is added to the running total. -/
theorem chargeStep_eq_of_due (now fee : Nat) (acc : ChargeAcc) (id : Nat)
    (sub : Subscription) (hsub : acc.subs id = some sub)
    (hdays : (now - sub.updated) / DAY ≠ 0) :
    chargeStep now fee acc id =
      { subs := updateMap acc.subs id (chargedSub now fee sub),
        events := acc.events ++
          ((if sub.balance - chargedAmount now fee sub < (fee : Int) then
              [Event.suspended sub.owner now id]
            else []) ++ [Event.charged sub.owner now id]),
        totalCharge := acc.totalCharge + chargedAmount now fee sub } := by
  unfold chargeStep
  split
  · next heq =>
    rw [hsub] at heq
    cases heq
  · next sub0 heq =>
    rw [hsub] at heq
    cases heq
    dsimp only
    split
    · next h0 => exact absurd h0 hdays
    · rfl

/-- The clamped charge is the minimum of the due amount and the balance. -/
theorem chargedAmount_min (now fee : Nat) (sub : Subscription) :
    chargedAmount now fee sub = min (chargedDue now fee sub) sub.balance := by
  unfold chargedAmount
  by_cases hlt : sub.balance < chargedDue now fee sub
  · rw [if_pos hlt, min_eq_right (le_of_lt hlt)]
  · rw [if_neg hlt, min_eq_left (not_lt.mp hlt)]

/-- The balance after one due charge iteration. -/
theorem chargedSub_balance (now fee : Nat) (sub : Subscription) :
    (chargedSub now fee sub).balance = sub.balance - chargedAmount now fee sub := by
  unfold chargedSub
  split
  · rfl
  · rfl

/-- The clamp keeps the balance non-negative. -/
theorem chargedSub_balance_nonneg (now fee : Nat) (sub : Subscription) :
    0 ≤ (chargedSub now fee sub).balance := by
  rw [chargedSub_balance, chargedAmount_min]
  exact sub_nonneg.mpr (min_le_right _ _)

/-- Status after one due charge iteration: suspended exactly when the new
balance is below the fee or the record was already suspended (`charge`
never clears a `Suspended` or `Cancelled` status on its own). -/
theorem chargedSub_status (now fee : Nat) (sub : Subscription) :
    ((chargedSub now fee sub).status = .Suspended ↔
      ((chargedSub now fee sub).balance < (fee : Int) ∨ sub.status = .Suspended)) := by
  unfold chargedSub
  split
  · next hb =>
    constructor
    · intro _
      exact Or.inl hb
    · intro _
      rfl
  · next hb =>
    constructor
    · exact fun hs => Or.inr hs
    · rintro (hl | hs)
      · exact absurd hl hb
      · exact hs

/-- A record that is already inert (fewer than one elapsed day) survives
the rest of the charge loop verbatim. -/
theorem charge_foldl_subs_inert (now fee : Nat) (l : List Nat) (acc : ChargeAcc)
    (id : Nat) (sub : Subscription) (hsub : acc.subs id = some sub)
    (hdays : (now - sub.updated) / DAY = 0) :
    (l.foldl (chargeStep now fee) acc).subs id = some sub := by
  induction l generalizing acc with
  | nil => exact hsub
  | cons a l ih =>
    rw [List.foldl_cons]
    by_cases ha : a = id
    · subst ha
      rw [chargeStep_of_inert now fee acc a
        (fun s hs => by rw [hsub] at hs; cases hs; exact hdays)]
      exact ih acc hsub
    · apply ih
      rw [chargeStep_subs_of_ne now fee acc a id (fun he => ha he.symm)]
      exact hsub

/-- A record whose id does not occur in a batch segment is untouched by it. -/
theorem charge_foldl_subs_of_not_mem (now fee : Nat) (l : List Nat) (acc : ChargeAcc)
    (id : Nat) (hid : id ∉ l) :
    (l.foldl (chargeStep now fee) acc).subs id = acc.subs id := by
  induction l generalizing acc with
  | nil => rfl
  | cons a l ih =>
    rw [List.foldl_cons, ih _ (fun h => hid (List.mem_cons_of_mem a h)),
      chargeStep_subs_of_ne now fee acc a id
        (fun he => by subst he; exact hid (List.mem_cons_self id l))]

/-- The state returned by `charge` always carries the loop's store, whether
or not the early return for a zero total was taken. -/
theorem charge_state_subs (s : ContractState) (now : Nat) (ids : List Nat) :
    (charge s now ids).state.subs = (chargeAcc s now ids).subs := by
  unfold charge
  dsimp only
  split
  · rfl
  · rfl

/-- One charge iteration keeps all balances non-negative: the deduction is
clamped to the available balance. -/
theorem chargeStep_nonneg (now fee : Nat) (acc : ChargeAcc) (id : Nat)
    (h : accNonneg acc) : accNonneg (chargeStep now fee acc id) := by
  intro id' sub' hsub'
  by_cases hid : id' = id
  · subst hid
    cases hacc : acc.subs id' with
    | none =>
      rw [chargeStep_of_none now fee acc id' hacc] at hsub'
      exact h _ _ hsub'
    | some sub0 =>
      by_cases hd : (now - sub0.updated) / DAY = 0
      · rw [chargeStep_of_inert now fee acc id'
          (fun s hs => by rw [hacc] at hs; cases hs; exact hd)] at hsub'
        exact h _ _ hsub'
      · rw [chargeStep_eq_of_due now fee acc id' sub0 hacc hd] at hsub'
        simp only [updateMap, if_pos rfl] at hsub'
        cases hsub'
        exact chargedSub_balance_nonneg now fee sub0
  · rw [chargeStep_subs_of_ne now fee acc id id' hid] at hsub'
    exact h _ _ hsub'

/-- The whole charge loop keeps all balances non-negative. -/
theorem charge_foldl_nonneg (now fee : Nat) (l : List Nat) (acc : ChargeAcc)
    (h : accNonneg acc) : accNonneg (l.foldl (chargeStep now fee) acc) := by
  induction l generalizing acc with
  | nil => exact h
  | cons a l ih => exact ih _ (chargeStep_nonneg now fee acc a h)

/-! ### Claims -/

/-- C10: charging a batch in which the same id occurs twice has the same
final state, events and total burn as charging the batch with that id
occurring once — the first occurrence either skips the id (leaving it inert)
or resets `updated` to `now`, so every later occurrence computes zero
elapsed days and is skipped. -/
theorem charge_duplicate_id_once (s : ContractState) (now : Nat) (id : Nat)
    (l1 l2 l3 : List Nat) :
    charge s now (l1 ++ id :: l2 ++ id :: l3) = charge s now (l1 ++ id :: l2 ++ l3) := by
  have key : chargeAcc s now (l1 ++ id :: l2 ++ id :: l3)
      = chargeAcc s now (l1 ++ id :: l2 ++ l3) := by
    unfold chargeAcc
    simp only [List.foldl_append, List.foldl_cons]
    rw [chargeStep_of_inert now s.fee _ id
      (chargeInert_foldl now s.fee l2 _ id (chargeInert_after_step now s.fee _ id))]
  unfold charge
  rw [key]

/-- C6: an id with no stored record is silently skipped by `charge`; the
call on a batch containing the unknown id is identical in final state,
events and burn to the call on the batch without it. -/
theorem charge_unknown_id_skipped (s : ContractState) (now : Nat) (uid : Nat)
    (l1 l2 : List Nat) (h : s.subs uid = none) :
    charge s now (l1 ++ uid :: l2) = charge s now (l1 ++ l2) := by
  have key : chargeAcc s now (l1 ++ uid :: l2) = chargeAcc s now (l1 ++ l2) := by
    unfold chargeAcc
    simp only [List.foldl_append, List.foldl_cons]
    rw [chargeStep_of_none now s.fee _ uid (charge_foldl_none now s.fee l1 _ uid h)]
  unfold charge
  rw [key]

/-- Witness for C6 at a concrete state: id 99 is unknown and
`charge([99, 1])` equals `charge([1])`. -/
theorem charge_unknown_id_skipped_witness :
    (exState exSub 100).subs 99 = none ∧
      charge (exState exSub 100) DAY ([] ++ 99 :: [1])
        = charge (exState exSub 100) DAY ([] ++ [1]) :=
  ⟨rfl, charge_unknown_id_skipped (exState exSub 100) DAY 99 [] [1] rfl⟩

/-- C3: a subscription whose `updated` is less than one full day before
`now` is left completely unchanged by `charge` on any batch containing its
id, and no event is emitted for that id. -/
theorem charge_recent_noop (s : ContractState) (now : Nat) (ids : List Nat) (id : Nat)
    (sub : Subscription) (hsub : s.subs id = some sub)
    (_hle : sub.updated ≤ now) (hlt : now - sub.updated < DAY) :
    (charge s now ids).state.subs id = some sub ∧
      ∀ e ∈ (charge s now ids).events, eventSubId e ≠ id := by
  have hdays : (now - sub.updated) / DAY = 0 := Nat.div_eq_of_lt hlt
  have key := charge_skip_frame now s.fee ids
    { subs := s.subs, events := [], totalCharge := 0 } id sub hsub hdays
    (by intro e he; cases he)
  unfold charge chargeAcc
  dsimp only
  split
  · exact ⟨key.1, by intro e he; cases he⟩
  · exact ⟨key.1, key.2⟩

/-- Witness for C3 at a concrete state: 5000 ms after `updated`, charge
leaves subscription 1 untouched and emits nothing for it. -/
theorem charge_recent_noop_witness :
    (exState exSub 100).subs 1 = some exSub ∧ exSub.updated ≤ 5000 ∧
      5000 - exSub.updated < DAY ∧
      ((charge (exState exSub 100) 5000 [1]).state.subs 1 = some exSub ∧
        ∀ e ∈ (charge (exState exSub 100) 5000 [1]).events, eventSubId e ≠ 1) :=
  ⟨rfl, by decide, by decide,
    charge_recent_noop (exState exSub 100) 5000 [1] 1 exSub rfl (by decide) (by decide)⟩

/-- C4 counterexample: the claimed iff fails for a previously suspended
subscription.  With fee 10, a `Suspended` record holding balance 50 and one
elapsed day is charged 10, ending with balance 40 ≥ fee, yet its status is
still `Suspended` after the call — `charge` never un-suspends. -/
theorem suspension_trigger_counterexample :
    ((charge (exState exSubSusp 10) DAY [1]).state.subs 1).map Subscription.status
      = some SubscriptionStatus.Suspended ∧
    ((charge (exState exSubSusp 10) DAY [1]).state.subs 1).map Subscription.balance
      = some 40 ∧
    ¬ ((40 : Int) < ((exState exSubSusp 10).fee : Int)) := by
  refine ⟨rfl, rfl, by decide⟩

/-- C4 (amended): for a subscription processed by `charge` (the first
occurrence of its id in the batch) with at least one elapsed full day, the
resulting status is `Suspended` iff the resulting balance is below the
current fee or the subscription was already `Suspended` before the charge
(`charge` only ever sets `Suspended`; it never restores a previously
`Suspended` or `Cancelled` record to `Active`). -/
theorem charge_suspension_trigger (s : ContractState) (now : Nat) (id : Nat)
    (l1 l2 : List Nat) (sub : Subscription) (hnot : id ∉ l1)
    (hsub : s.subs id = some sub) (hdays : (now - sub.updated) / DAY ≠ 0) :
    ∃ sub', (charge s now (l1 ++ id :: l2)).state.subs id = some sub' ∧
      (sub'.status = .Suspended ↔
        (sub'.balance < (s.fee : Int) ∨ sub.status = .Suspended)) := by
  refine ⟨chargedSub now s.fee sub, ?_, chargedSub_status now s.fee sub⟩
  rw [charge_state_subs]
  show ((l1 ++ id :: l2).foldl (chargeStep now s.fee)
    { subs := s.subs, events := [], totalCharge := 0 }).subs id = _
  rw [List.foldl_append, List.foldl_cons]
  have hacc1 : (l1.foldl (chargeStep now s.fee)
      { subs := s.subs, events := [], totalCharge := 0 }).subs id = some sub := by
    rw [charge_foldl_subs_of_not_mem now s.fee l1 _ id hnot]
    exact hsub
  apply charge_foldl_subs_inert now s.fee l2 _ id (chargedSub now s.fee sub)
  · rw [chargeStep_eq_of_due now s.fee _ id sub hacc1 hdays]
    simp [updateMap]
  · unfold chargedSub
    rw [apply_ite Subscription.updated]
    simp

/-- Witness for C4's amended theorem at a concrete state. -/
theorem charge_suspension_trigger_witness :
    (1 : Nat) ∉ ([] : List Nat) ∧
      (exState exSub 100).subs 1 = some exSub ∧ (DAY - exSub.updated) / DAY ≠ 0 ∧
      ∃ sub', (charge (exState exSub 100) DAY [1]).state.subs 1 = some sub' ∧
        (sub'.status = .Suspended ↔
          (sub'.balance < ((exState exSub 100).fee : Int) ∨ exSub.status = .Suspended)) :=
  ⟨by decide, rfl, by decide,
    charge_suspension_trigger (exState exSub 100) DAY 1 [] [] exSub (by decide) rfl
      (by decide)⟩

/-- C9 counterexample: a zero-total batch is not a complete no-op.  With
fee 100 and a stored balance of 0, one elapsed day yields a clamped charge
of 0, so `total_charge = 0`, yet the record's `updated` is reset and its
status flips to `Suspended` because the persist happens inside the loop,
before the early return. -/
theorem charge_zero_total_counterexample :
    (chargeAcc (exState exSubZero 100) DAY [1]).totalCharge = 0 ∧
      (charge (exState exSubZero 100) DAY [1]).state.subs 1
        ≠ (exState exSubZero 100).subs 1 := by
  refine ⟨rfl, by decide⟩

/-- C9 (amended): when the accumulated `total_charge` over a whole batch is
zero, `charge` publishes no event and burns nothing; the per-subscription
mutations already persisted inside the loop are kept. -/
theorem charge_zero_total_no_events_no_burn (s : ContractState) (now : Nat)
    (ids : List Nat) (h : (chargeAcc s now ids).totalCharge = 0) :
    (charge s now ids).events = [] ∧ (charge s now ids).burned = 0 := by
  unfold charge
  dsimp only
  rw [if_pos h]
  exact ⟨rfl, rfl⟩

/-- Witness for C9's amended theorem at a concrete state. -/
theorem charge_zero_total_no_events_no_burn_witness :
    (chargeAcc (exState exSubZero 100) DAY [1]).totalCharge = 0 ∧
      ((charge (exState exSubZero 100) DAY [1]).events = [] ∧
        (charge (exState exSubZero 100) DAY [1]).burned = 0) :=
  ⟨rfl, charge_zero_total_no_events_no_burn (exState exSubZero 100) DAY [1] rfl⟩

/-- C2: balances stay non-negative across every operation, and `charge`
deducts exactly `min(elapsed_days * fee, balance)`, so the subtraction
never underflows and a subscription is never overdrawn. -/
theorem balance_nonneg_invariant (s : ContractState) (h : balancesNonneg s) :
    (∀ now p amount r, create_subscription s now p amount = .ok r →
      balancesNonneg r.state) ∧
    (∀ from_ id amount r, deposit s from_ id amount = .ok r →
      balancesNonneg r.state) ∧
    (∀ now ids, balancesNonneg (charge s now ids).state) ∧
    (∀ id r, cancel s id = .ok r → balancesNonneg r.state) ∧
    (∀ now id sub, s.subs id = some sub → (now - sub.updated) / DAY ≠ 0 →
      ∃ sub', (charge s now [id]).state.subs id = some sub' ∧
        sub'.balance = sub.balance -
          min (((now - sub.updated) / DAY * s.fee : Nat) : Int) sub.balance ∧
        0 ≤ sub'.balance) := by
  refine ⟨?_, ?_, ?_, ?_, ?_⟩
  · intro now p amount r hr
    simp only [create_subscription] at hr
    split at hr
    · exact Except.noConfusion hr
    · split at hr
      · exact Except.noConfusion hr
      · split at hr
        · exact Except.noConfusion hr
        · split at hr
          · exact Except.noConfusion hr
          · split at hr
            · exact Except.noConfusion hr
            · injection hr with hr
              subst hr
              intro id' sub' h'
              simp only [updateMap] at h'
              split at h'
              · cases h'
                exact Int.natCast_nonneg _
              · exact h _ _ h'
  · intro from_ id amount r hr
    simp only [deposit] at hr
    split at hr
    · exact Except.noConfusion hr
    · split at hr
      · exact Except.noConfusion hr
      · split at hr
        · exact Except.noConfusion hr
        · next subscription heq =>
          split at hr
          · next hstatus =>
            split at hr
            · exact Except.noConfusion hr
            · injection hr with hr
              subst hr
              intro id' sub' h'
              simp only [depositFinish, updateMap] at h'
              split at h'
              · cases h'
                exact add_nonneg (h _ _ heq) (Int.natCast_nonneg _)
              · exact h _ _ h'
          · exact Except.noConfusion hr
          · next hstatus =>
            injection hr with hr
            subst hr
            intro id' sub' h'
            simp only [depositFinish, updateMap] at h'
            split at h'
            · cases h'
              exact add_nonneg (h _ _ heq) (Int.natCast_nonneg _)
            · exact h _ _ h'
  · intro now ids
    intro id sub h'
    rw [charge_state_subs] at h'
    exact charge_foldl_nonneg now s.fee ids
      { subs := s.subs, events := [], totalCharge := 0 }
      (fun id0 sub0 hs0 => h id0 sub0 hs0) id sub h'
  · intro id r hr
    simp only [cancel] at hr
    split at hr
    · exact Except.noConfusion hr
    · split at hr
      · exact Except.noConfusion hr
      · next subscription heq =>
        split at hr
        · injection hr with hr
          subst hr
          intro id' sub' h'
          simp only [updateMap] at h'
          split at h'
          · cases h'
            exact le_refl 0
          · exact h _ _ h'
        · exact Except.noConfusion hr
  · intro now id sub hsub hdays
    refine ⟨chargedSub now s.fee sub, ?_, ?_, chargedSub_balance_nonneg now s.fee sub⟩
    · rw [charge_state_subs]
      show (chargeStep now s.fee { subs := s.subs, events := [], totalCharge := 0 }
        id).subs id = _
      rw [chargeStep_eq_of_due now s.fee _ id sub hsub hdays]
      simp [updateMap]
    · rw [chargedSub_balance, chargedAmount_min]
      rfl

/-- Witness for C2 at a concrete state: the invariant holds before and
after a charge call. -/
theorem balance_nonneg_invariant_witness :
    balancesNonneg (exState exSub 100) ∧
      balancesNonneg (charge (exState exSub 100) DAY [1]).state := by
  have h : balancesNonneg (exState exSub 100) := by
    intro id sub hs
    simp only [exState, updateMap, emptySubs] at hs
    split at hs
    · cases hs
      decide
    · cases hs
  exact ⟨h, (balance_nonneg_invariant (exState exSub 100) h).2.2.1 DAY [1]⟩

/-- C1: cancellation is not terminal in the code.  At the concrete failing
input — fee 100, subscription 1 `Cancelled` with balance 0 and `updated`
one day in the past — `deposit` and `cancel` do fail with
`InvalidSubscriptionStatusError`, but `charge([1])` flips the record's
status from `Cancelled` to `Suspended` (zero clamped charge, balance 0 <
fee), after which a deposit of the fee reactivates it to `Active`. -/
theorem charge_resurrects_cancelled :
    deposit (exState exSubCancelled 100) (Addr.user 5) 1 50
        = .error .InvalidSubscriptionStatusError ∧
    cancel (exState exSubCancelled 100) 1 = .error .InvalidSubscriptionStatusError ∧
    (((charge (exState exSubCancelled 100) DAY [1]).state.subs 1).map Subscription.status
        = some SubscriptionStatus.Suspended) ∧
    ((deposit (charge (exState exSubCancelled 100) DAY [1]).state
          (Addr.user 5) 1 100).toOption.map
        (fun r => (r.state.subs 1).map Subscription.status) = some (some .Active)) := by
  refine ⟨rfl, rfl, rfl, rfl⟩

/-- C5 counterexample: with the current fee lowered to 0, a deposit of 0 to
a `Suspended` subscription satisfies `amount ≥ fee` but still fails with
`InvalidAmount` because of the zero-amount check, instead of burning the
fee and reactivating as the claim states. -/
theorem reactivation_gate_counterexample :
    (exState exSubSuspended 0).fee ≤ 0 ∧
      deposit (exState exSubSuspended 0) (Addr.user 3) 1 0
        = .error .InvalidAmount :=
  ⟨by decide, rfl⟩

/-- C5 (amended): for an existing `Suspended` subscription, a deposit of
`amount < fee` fails with `InvalidAmount`; a deposit with `amount ≥ fee`
and `amount > 0` burns exactly the current fee, credits `amount - fee` and
sets the status to `Active`.  The threshold is the fee at deposit time. -/
theorem deposit_reactivation_gate (s : ContractState) (from_ : Addr) (id : Nat)
    (amount : Nat) (sub : Subscription) (hinit : s.initialized)
    (hsub : s.subs id = some sub) (hst : sub.status = .Suspended) :
    (amount < s.fee → deposit s from_ id amount = .error .InvalidAmount) ∧
    (amount ≠ 0 → s.fee ≤ amount → ∃ r, deposit s from_ id amount = .ok r ∧
      r.burned = (s.fee : Int) ∧
      r.state.subs id = some { sub with status := .Active, balance := sub.balance + ((amount - s.fee : Nat) : Int) } ∧
      (∀ id', id' ≠ id → r.state.subs id' = s.subs id')) := by
  constructor
  · intro hlt
    by_cases h0 : amount = 0
    · simp only [deposit]
      rw [if_neg (not_not_intro hinit), if_pos h0]
    · simp only [deposit]
      rw [if_neg (not_not_intro hinit), if_neg h0]
      split
      · next heq =>
        rw [hsub] at heq
        cases heq
      · next subscription heq =>
        rw [hsub] at heq
        cases heq
        split
        · rw [if_pos hlt]
        · next heq2 =>
          rw [hst] at heq2
          cases heq2
        · next heq2 =>
          rw [hst] at heq2
          cases heq2
  · intro h0 hge
    refine ⟨depositFinish s from_ id amount s.fee { sub with status := .Active },
      ?_, rfl, ?_, ?_⟩
    · simp only [deposit]
      rw [if_neg (not_not_intro hinit), if_neg h0]
      split
      · next heq =>
        rw [hsub] at heq
        cases heq
      · next subscription heq =>
        rw [hsub] at heq
        cases heq
        split
        · rw [if_neg (not_lt.mpr hge)]
        · next heq2 =>
          rw [hst] at heq2
          cases heq2
        · next heq2 =>
          rw [hst] at heq2
          cases heq2
    · simp [depositFinish, updateMap]
    · intro id' hne
      simp [depositFinish, updateMap, hne]

/-- Witness for C5's amended theorem at a concrete state: a deposit of 150
against fee 100 reactivates the suspended subscription, burning 100. -/
theorem deposit_reactivation_gate_witness :
    (exState exSubSuspended 100).initialized = true ∧
    (exState exSubSuspended 100).subs 1 = some exSubSuspended ∧
    exSubSuspended.status = SubscriptionStatus.Suspended ∧
    (∃ r, deposit (exState exSubSuspended 100) (Addr.user 3) 1 150 = .ok r ∧
      r.burned = ((exState exSubSuspended 100).fee : Int) ∧
      r.state.subs 1 = some { exSubSuspended with status := .Active, balance := exSubSuspended.balance + ((150 - (exState exSubSuspended 100).fee : Nat) : Int) } ∧
      (∀ id', id' ≠ 1 → r.state.subs id' = (exState exSubSuspended 100).subs id')) :=
  ⟨rfl, rfl, rfl,
    (deposit_reactivation_gate (exState exSubSuspended 100) (Addr.user 3) 1 150
      exSubSuspended rfl rfl rfl).2 (by decide) (by decide)⟩

/-- C7: `create_subscription` validates in source order with the first
failure winning (`NotInitialized`, then `InvalidAmount` when
`amount < fee * MIN_FEE_FACTOR`, then `InvalidHeartbeat` when
`heartbeat < 5`, then `InvalidThreshold` when `threshold = 0` or
`threshold > 1000`, then `WebhookTooLong` when the webhook exceeds 2048
bytes); on success it stores a record with `balance = amount -
activation_fee`, `status = Active`, `updated = now` under the incremented
counter and returns that id. -/
theorem create_subscription_spec (s : ContractState) (now : Nat)
    (p : SubscriptionInitParams) (amount : Nat) :
    (¬ s.initialized → create_subscription s now p amount = .error .NotInitialized) ∧
    (s.initialized → amount < s.fee * MIN_FEE_FACTOR →
      create_subscription s now p amount = .error .InvalidAmount) ∧
    (s.initialized → ¬ amount < s.fee * MIN_FEE_FACTOR →
      p.heartbeat < MIN_HEARTBEAT →
      create_subscription s now p amount = .error .InvalidHeartbeat) ∧
    (s.initialized → ¬ amount < s.fee * MIN_FEE_FACTOR →
      ¬ p.heartbeat < MIN_HEARTBEAT → (p.threshold = 0 ∨ p.threshold > 1000) →
      create_subscription s now p amount = .error .InvalidThreshold) ∧
    (s.initialized → ¬ amount < s.fee * MIN_FEE_FACTOR →
      ¬ p.heartbeat < MIN_HEARTBEAT → ¬ (p.threshold = 0 ∨ p.threshold > 1000) →
      p.webhook.length > MAX_WEBHOOK_SIZE →
      create_subscription s now p amount = .error .WebhookTooLong) ∧
    (s.initialized → ¬ amount < s.fee * MIN_FEE_FACTOR →
      ¬ p.heartbeat < MIN_HEARTBEAT → ¬ (p.threshold = 0 ∨ p.threshold > 1000) →
      ¬ p.webhook.length > MAX_WEBHOOK_SIZE →
      ∃ r, create_subscription s now p amount = .ok r ∧
        r.retId = s.lastSubscriptionId + 1 ∧
        r.retSub.balance = ((amount - s.fee * MIN_FEE_FACTOR : Nat) : Int) ∧
        r.retSub.status = .Active ∧ r.retSub.updated = now ∧
        r.state.subs r.retId = some r.retSub ∧
        r.state.lastSubscriptionId = r.retId ∧
        (∀ id', id' ≠ r.retId → r.state.subs id' = s.subs id')) := by
  refine ⟨?_, ?_, ?_, ?_, ?_, ?_⟩
  · intro h1
    simp only [create_subscription]
    rw [if_pos h1]
  · intro h1 h2
    simp only [create_subscription]
    rw [if_neg (not_not_intro h1), if_pos h2]
  · intro h1 h2 h3
    simp only [create_subscription]
    rw [if_neg (not_not_intro h1), if_neg h2, if_pos h3]
  · intro h1 h2 h3 h4
    simp only [create_subscription]
    rw [if_neg (not_not_intro h1), if_neg h2, if_neg h3, if_pos h4]
  · intro h1 h2 h3 h4 h5
    simp only [create_subscription]
    rw [if_neg (not_not_intro h1), if_neg h2, if_neg h3, if_neg h4, if_pos h5]
  · intro h1 h2 h3 h4 h5
    simp only [create_subscription]
    rw [if_neg (not_not_intro h1), if_neg h2, if_neg h3, if_neg h4, if_neg h5]
    refine ⟨_, rfl, rfl, rfl, rfl, rfl, ?_, rfl, ?_⟩
    · simp [updateMap]
    · intro id' hne
      simp [updateMap, hne]

/-- Witness for C7's success clause at a concrete state: fee 100, deposit
150, valid parameters. -/
theorem create_subscription_spec_witness :
    ∃ r, create_subscription (exState exSub 100) 0 exParams 150 = .ok r ∧
      r.retId = (exState exSub 100).lastSubscriptionId + 1 ∧
      r.retSub.balance = ((150 - (exState exSub 100).fee * MIN_FEE_FACTOR : Nat) : Int) ∧
      r.retSub.status = .Active ∧ r.retSub.updated = 0 ∧
      r.state.subs r.retId = some r.retSub ∧
      r.state.lastSubscriptionId = r.retId ∧
      (∀ id', id' ≠ r.retId → r.state.subs id' = (exState exSub 100).subs id') :=
  (create_subscription_spec (exState exSub 100) 0 exParams 150).2.2.2.2.2
    (by decide) (by decide) (by decide) (by decide) (by decide)

/-- C8: `cancel` on an existing subscription requires status `Active` and
fails with `InvalidSubscriptionStatusError` otherwise (leaving the state
untouched, since the error aborts the call); on success it refunds the
whole remaining balance to the owner, zeroes the balance and sets the
status to `Cancelled`. -/
theorem cancel_spec (s : ContractState) (id : Nat) (sub : Subscription)
    (hinit : s.initialized) (hsub : s.subs id = some sub) :
    (sub.status ≠ .Active → cancel s id = .error .InvalidSubscriptionStatusError) ∧
    (sub.status = .Active → ∃ r, cancel s id = .ok r ∧
      r.transfers = [⟨Addr.contract, sub.owner, sub.balance⟩] ∧
      r.events = [Event.cancelled sub.owner id] ∧
      r.state.subs id = some { sub with status := .Cancelled, balance := 0 } ∧
      (∀ id', id' ≠ id → r.state.subs id' = s.subs id')) := by
  constructor
  · intro hst
    simp only [cancel]
    rw [if_neg (not_not_intro hinit)]
    split
    · next heq =>
      rw [hsub] at heq
      cases heq
    · next subscription heq =>
      rw [hsub] at heq
      cases heq
      split
      · next heq2 => exact absurd heq2 hst
      · rfl
  · intro hst
    refine ⟨{ state := { s with subs := updateMap s.subs id { sub with status := .Cancelled, balance := 0 } }, events := [Event.cancelled sub.owner id], transfers := [⟨Addr.contract, sub.owner, sub.balance⟩] }, ?_, rfl, rfl, ?_, ?_⟩
    · simp only [cancel]
      rw [if_neg (not_not_intro hinit)]
      split
      · next heq =>
        rw [hsub] at heq
        cases heq
      · next subscription heq =>
        rw [hsub] at heq
        cases heq
        split
        · rfl
        · next hne => exact absurd hst hne
    · simp [updateMap]
    · intro id' hne
      simp [updateMap, hne]

/-- Witness for C8: cancelling the active `exSub` refunds 100 and marks the
record `Cancelled` with balance 0. -/
theorem cancel_spec_witness :
    exSub.status = SubscriptionStatus.Active ∧
      ∃ r, cancel (exState exSub 100) 1 = .ok r ∧
        r.transfers = [⟨Addr.contract, exSub.owner, exSub.balance⟩] ∧
        r.events = [Event.cancelled exSub.owner 1] ∧
        r.state.subs 1 = some { exSub with status := .Cancelled, balance := 0 } ∧
        (∀ id', id' ≠ 1 → r.state.subs id' = (exState exSub 100).subs id') :=
  ⟨rfl, (cancel_spec (exState exSub 100) 1 exSub rfl rfl).2 rfl⟩

end Reflector
